import Mathlib

/-!
Verification development for the Anki LLM interactive quiz add-on
(single source file `__init__.py`).  The definitions below are a shallow
embedding of the add-on's conversation/streaming session manager:
message history, system-prompt formatting, the streaming SSE decoder,
the response post-processor, the retry loop of `process_response`, and
`extract_response_text`.  Machine-level concerns (Qt widgets, threads,
actual sockets) are abstracted: network attempts become an oracle of
attempt outcomes, the byte stream becomes a list of decoded lines, and
UI appends are recorded as event values.
-/

namespace AnkiQuiz

/-! ## Basic character and string helpers (Python semantics) -/

/-- Whitespace characters removed by Python's `str.strip()` (ASCII set). -/
def isPyWs : Char → Bool
  | ' ' | '\t' | '\n' | '\r' | '\x0b' | '\x0c' => true
  | _ => false

/-- Python `str.strip()` on a character list. -/
def stripChars (l : List Char) : List Char :=
  ((l.dropWhile isPyWs).reverse.dropWhile isPyWs).reverse

/-- Python `str.strip()`. -/
def stripStr (s : String) : String :=
  String.mk (stripChars s.data)

/-- Python `str.lower()` (ASCII model). -/
def lowerStr (s : String) : String :=
  String.mk (s.data.map Char.toLower)

/-- Python `a.startswith(b)`. -/
def strStarts (s marker : String) : Bool :=
  marker.data.isPrefixOf s.data

/-- Python `needle in hay` for character lists (substring containment). -/
def charsContain (needle : List Char) : List Char → Bool
  | [] => needle.isEmpty
  | c :: rest => needle.isPrefixOf (c :: rest) || charsContain needle rest

/-- Python `needle in hay` on strings. -/
def strContains (hay needle : String) : Bool :=
  charsContain needle.data hay.data

/-- Python `s[:n]` (first `n` characters). -/
def strTake (s : String) (n : Nat) : String :=
  String.mk (s.data.take n)

/-- Python `s[n:]` (drop the first `n` characters). -/
def strDrop (s : String) (n : Nat) : String :=
  String.mk (s.data.drop n)

/-- Python `s.split(chr(10))` on character lists; never returns `[]`. -/
def splitNlChars : List Char → List (List Char)
  | [] => [[]]
  | '\n' :: rest => [] :: splitNlChars rest
  | c :: rest =>
    match splitNlChars rest with
    | [] => [[c]]
    | g :: gs => (c :: g) :: gs

/-- Python `"\n".join(groups)` on character lists. -/
def joinNlChars : List (List Char) → List Char
  | [] => []
  | [g] => g
  | g :: gs => g ++ '\n' :: joinNlChars gs

/-- Concatenation of a list of strings (the growing `full_response`). -/
def strConcat : List String → String
  | [] => ""
  | s :: rest => s ++ strConcat rest

/-! ## Response post-processor: `clean_response_text`

The source applies, in order:
1. `re.sub(r'<think>.*?</think>', '', text, flags=re.DOTALL)`
2. `.lstrip(chr(10))`
3. `re.sub(r'<[^>]+>', '', cleaned)`
4. `.strip()`
-/

/-- Characters of the literal `<think>` opening tag. -/
def thinkOpen : List Char := ['<', 't', 'h', 'i', 'n', 'k', '>']

/-- Characters of the literal `</think>` closing tag. -/
def thinkClose : List Char := ['<', '/', 't', 'h', 'i', 'n', 'k', '>']

/-- Scan for the earliest occurrence of `</think>` and return the suffix
after it (the lazy `.*?` behaviour of the regex); `none` if absent. -/
def findClose : List Char → Option (List Char)
  | [] => none
  | c :: cs =>
    if thinkClose.isPrefixOf (c :: cs) then some ((c :: cs).drop 8)
    else findClose cs

/-- Fuel-indexed removal of every non-greedy `<think>...</think>` match,
scanning left to right exactly like `re.sub`.  `fuel` at least the input
length makes the fuel branch unreachable. -/
def removeThinkF : Nat → List Char → List Char
  | 0, l => l
  | _ + 1, [] => []
  | fuel + 1, c :: cs =>
    if thinkOpen.isPrefixOf (c :: cs) then
      match findClose ((c :: cs).drop 7) with
      | some rest => removeThinkF fuel rest
      | none => c :: removeThinkF fuel cs
    else c :: removeThinkF fuel cs

/-- Removal of every `<think>...</think>` span (step 1 of the cleaner). -/
def removeThink (l : List Char) : List Char :=
  removeThinkF l.length l

/-- Find the first `'>'`; return the number of characters before it and
the suffix after it. -/
def splitAfterGt : List Char → Option (Nat × List Char)
  | [] => none
  | c :: cs =>
    if c == '>' then some (0, cs)
    else
      match splitAfterGt cs with
      | some (k, rest) => some (k + 1, rest)
      | none => none

/-- Fuel-indexed `re.sub(r'<[^>]+>', '', l)`: at each `'<'`, a match runs
to the first later `'>'` provided at least one character lies between. -/
def removeTagsF : Nat → List Char → List Char
  | 0, l => l
  | _ + 1, [] => []
  | fuel + 1, c :: cs =>
    if c == '<' then
      match splitAfterGt cs with
      | some (k, rest) =>
        if 1 ≤ k then removeTagsF fuel rest
        else c :: removeTagsF fuel cs
      | none => c :: removeTagsF fuel cs
    else c :: removeTagsF fuel cs

/-- Removal of remaining markup-like tags (step 3 of the cleaner). -/
def removeTags (l : List Char) : List Char :=
  removeTagsF l.length l

/-- The add-on's `clean_response_text`: think-span removal, leading
newline strip, tag removal, surrounding-whitespace strip. -/
def clean_response_text (text : String) : String :=
  let c1 := removeThink text.data
  let c2 := c1.dropWhile (fun c => c == '\n')
  let c3 := removeTags c2
  String.mk (stripChars c3)

/-! ## Session data model -/

/-- Chat roles used in the conversation history. -/
inductive Role where
  | system
  | user
  | assistant
deriving DecidableEq

/-- One entry of `conversation_history`. -/
structure Message where
  role : Role
  content : String
deriving DecidableEq

/-! ## System-prompt formatting: `display_question`

`display_question` runs `template.format(question=..., answer=...)`;
only `KeyError` is caught (unknown placeholder name), in which case a
hardcoded fallback prompt is used.  Other formatting errors (stray
braces, positional fields) propagate to the caller.
-/

/-- Errors of Python's `str.format`. -/
inductive FmtError where
  | keyError (k : String)
  | valueError
  | otherError
deriving DecidableEq

/-- Value of a digit string (format-spec widths, precisions, indices). -/
def natOfDigits (l : List Char) : Nat :=
  l.foldl (fun acc c => acc * 10 + (c.toNat - 48)) 0

/-- Alignment characters of the format-spec mini-language. -/
def isAlignChar (c : Char) : Bool :=
  c == '<' || c == '>' || c == '^' || c == '='

/-- Read a replacement field up to its matching closing brace, the way
CPython's markup iterator scans: while still in the field-name part,
square brackets make braces literal (so an unterminated index swallows
the closing brace and the field fails as unmatched); after the `!` or
`:` that ends the name, brackets are ordinary and braces nest (a spec
may contain replacement fields).  `none` for an unmatched brace. -/
def readFieldD (depth : Nat) (inName inBracket : Bool) :
    List Char → Option (List Char × List Char)
  | [] => none
  | c :: rest =>
    if inName && inBracket then
      match readFieldD depth inName (c != ']') rest with
      | some (f, r) => some (c :: f, r)
      | none => none
    else if c = '\x7d' then
      match depth with
      | 0 => some ([], rest)
      | d + 1 =>
        match readFieldD d inName false rest with
        | some (f, r) => some ('\x7d' :: f, r)
        | none => none
    else if c = '\x7b' then
      match readFieldD (depth + 1) inName false rest with
      | some (f, r) => some ('\x7b' :: f, r)
      | none => none
    else if inName && c = '[' then
      match readFieldD depth true true rest with
      | some (f, r) => some (c :: f, r)
      | none => none
    else if inName && (c = '!' || c = ':') then
      match readFieldD depth false false rest with
      | some (f, r) => some (c :: f, r)
      | none => none
    else
      match readFieldD depth inName false rest with
      | some (f, r) => some (c :: f, r)
      | none => none

/-- Whether the name part holds a brace outside index brackets, which
CPython rejects at parse time (`unexpected brace in field name`). -/
def nameHasBadBrace : Bool → List Char → Bool
  | _, [] => false
  | true, c :: rest => nameHasBadBrace (c != ']') rest
  | false, c :: rest =>
    if c == '\x7b' || c == '\x7d' then true
    else nameHasBadBrace (c == '[') rest

/-- Split a field at the first `!` or `:` outside index brackets,
returning the name-with-accessors part and the remainder. -/
def splitName : Bool → List Char → List Char × List Char
  | _, [] => ([], [])
  | true, c :: rest =>
    match splitName (c != ']') rest with
    | (n, r) => (c :: n, r)
  | false, c :: rest =>
    if c == '!' || c == ':' then ([], c :: rest)
    else
      match splitName (c == '[') rest with
      | (n, r) => (c :: n, r)

/-- Split a replacement field into name part, conversion character and
format spec, with CPython's parse-stage errors: a brace inside the name
and a conversion that is not one character before `:` or the field end
are `ValueError`s raised before any lookup. -/
def splitFieldParts (field : List Char) :
    Except FmtError (List Char × Option Char × Option (List Char)) :=
  match splitName false field with
  | (namePart, rest) =>
    if nameHasBadBrace false namePart then .error .valueError
    else
      match rest with
      | [] => .ok (namePart, none, none)
      | '!' :: c :: ':' :: sp => .ok (namePart, some c, some sp)
      | '!' :: [c] => .ok (namePart, some c, none)
      | '!' :: _ => .error .valueError
      | ':' :: sp => .ok (namePart, none, some sp)
      | _ => .error .valueError

/-- Scan an index key up to its closing bracket. -/
def spanToClose : List Char → Option (List Char × List Char)
  | [] => none
  | ']' :: rest => some ([], rest)
  | c :: rest =>
    match spanToClose rest with
    | some (k, r) => some (c :: k, r)
    | none => none

/-- Apply a field's trailing accessors to a string value, parsing them
left to right as CPython's field-name iterator does: a digit index
selects one character (`IndexError` past the end), a non-digit index is
a `TypeError` (string indices must be integers), an empty accessor or
missing bracket is a `ValueError`, and attribute access is modelled as
`AttributeError`.  (For the few names that are real built-in `str`
attributes CPython would instead render a bound-method `repr`
containing a runtime memory address, which no pure model can
reproduce; no template in this repository accesses attributes.) -/
def applyFieldAccess (v : List Char) : Nat → List Char → Except FmtError (List Char)
  | _, [] => .ok v
  | 0, _ => .error .otherError
  | _ + 1, '.' :: rest =>
    let nm := rest.takeWhile (fun c => c != '.' && c != '[')
    if nm.isEmpty then .error .valueError
    else .error .otherError
  | fuel + 1, '[' :: rest =>
    match spanToClose rest with
    | none => .error .valueError
    | some (key, r2) =>
      if key.isEmpty then .error .valueError
      else if key.all Char.isDigit then
        match v.drop (natOfDigits key) with
        | c :: _ => applyFieldAccess [c] fuel r2
        | [] => .error .otherError
      else .error .otherError
  | _ + 1, _ :: _ => .error .valueError

/-- Resolve a field's name: classify the base (auto/positional fields
fail with `IndexError` since no positional arguments are passed, an
unknown keyword raises `KeyError`) and only then process accessors,
matching CPython's ordering (`oops[]` is a `KeyError`, not a
`ValueError`). -/
def lookupAndAccess (q a : String) (namePart : List Char) :
    Except FmtError (List Char) :=
  let base := namePart.takeWhile (fun c => c != '.' && c != '[')
  let accs := namePart.drop base.length
  if base.isEmpty || base.all Char.isDigit then .error .otherError
  else if base = ("question").data then applyFieldAccess q.data (accs.length + 1) accs
  else if base = ("answer").data then applyFieldAccess a.data (accs.length + 1) accs
  else .error (.keyError (String.mk base))

/-- Lowercase hexadecimal digit. -/
def hexDigitChar (n : Nat) : Char :=
  if n < 10 then Char.ofNat (48 + n) else Char.ofNat (87 + n)

/-- One character of a Python string `repr`. -/
def pyReprEsc (quote c : Char) : List Char :=
  if c = '\\' then ['\\', '\\']
  else if c = quote then ['\\', quote]
  else if c = '\n' then ['\\', 'n']
  else if c = '\r' then ['\\', 'r']
  else if c = '\t' then ['\\', 't']
  else if c.toNat < 32 || c.toNat = 127 then
    ['\\', 'x', hexDigitChar (c.toNat / 16), hexDigitChar (c.toNat % 16)]
  else [c]

/-- Python `repr` of a string: single quotes unless the value holds a
single quote but no double quote, backslash escapes for the quote,
backslashes and ASCII control characters.  (Non-ASCII non-printable
characters, which `repr` also escapes, are approximated as printable;
no claim evaluates `repr` on one.) -/
def pyRepr (s : List Char) : List Char :=
  let quote : Char := if s.contains '\x27' && !(s.contains '"') then '"' else '\x27'
  quote :: ((s.map (pyReprEsc quote)).flatten ++ [quote])

/-- Apply a conversion: `s` is identity, `r` and `a` insert the `repr`
(`ascii` equals `repr` on ASCII text), any other character is the
render-stage `ValueError` CPython raises after the lookup. -/
def applyConv (v : List Char) : Option Char → Except FmtError (List Char)
  | none => .ok v
  | some c =>
    if c = 's' then .ok v
    else if c = 'r' || c = 'a' then .ok (pyRepr v)
    else .error .valueError

/-- Apply a brace-free format spec to a string value with CPython's
`str.__format__` rules: optional fill-and-align (`=` rejected for
strings), sign/`z`/`#` flags rejected, optional zero-fill flag, width,
grouping rejected, optional `.precision` (truncating), and a final type
that must be `s` or absent; then truncate and pad. -/
def formatStrSpec (value sp : List Char) : Except FmtError (List Char) :=
  let fa : Char × Option Char × List Char :=
    match sp with
    | c1 :: c2 :: rest =>
      if isAlignChar c2 then (c1, some c2, rest)
      else if isAlignChar c1 then (' ', some c1, c2 :: rest)
      else (' ', none, sp)
    | [c1] => if isAlignChar c1 then (' ', some c1, []) else (' ', none, sp)
    | [] => (' ', none, [])
  match fa with
  | (fill, align, s1) =>
    if align = some '=' then .error .valueError
    else
      let flagBad :=
        match s1 with
        | c :: _ => c == '+' || c == '-' || c == ' ' || c == 'z' || c == '#'
        | [] => false
      if flagBad then .error .valueError
      else
        let zs : List Char :=
          match s1 with
          | '0' :: rest => rest
          | _ => s1
        match zs.span Char.isDigit with
        | (widthDigits, s3) =>
          let groupBad :=
            match s3 with
            | c :: _ => c == ',' || c == '_'
            | [] => false
          if groupBad then .error .valueError
          else
            let pr : Except FmtError (Option Nat × List Char) :=
              match s3 with
              | '.' :: rest =>
                match rest.span Char.isDigit with
                | ([], _) => .error .valueError
                | (pd, r2) => .ok (some (natOfDigits pd), r2)
              | _ => .ok (none, s3)
            match pr with
            | .error e => .error e
            | .ok (prec, s4) =>
              if !(s4 = [] || s4 = ['s']) then .error .valueError
              else
                let zeroPad : Bool :=
                  match s1 with
                  | '0' :: _ => true
                  | _ => false
                let fill2 := if zeroPad && align.isNone then '0' else fill
                let w := natOfDigits widthDigits
                let content :=
                  match prec with
                  | some p => value.take p
                  | none => value
                let pad := w - content.length
                match align.getD '<' with
                | '>' => .ok (List.replicate pad fill2 ++ content)
                | '^' => .ok (List.replicate (pad / 2) fill2 ++ content ++
                    List.replicate (pad - pad / 2) fill2)
                | _ => .ok (content ++ List.replicate pad fill2)

/-- Evaluate a replacement field nested inside a format spec: full name
and conversion handling, but its own spec may not contain further
replacement fields (CPython's "Max string recursion exceeded"). -/
def evalFieldInner (q a : String) (field : List Char) :
    Except FmtError (List Char) :=
  match splitFieldParts field with
  | .error e => .error e
  | .ok (namePart, conv, spOpt) =>
    match lookupAndAccess q a namePart with
    | .error e => .error e
    | .ok v1 =>
      match applyConv v1 conv with
      | .error e => .error e
      | .ok v2 =>
        match spOpt with
        | none => .ok v2
        | some sp =>
          if sp.contains '\x7b' then .error .valueError
          else formatStrSpec v2 sp

/-- Substitute the replacement fields a format spec may contain,
evaluating each like a top-level field (so an unknown name in a spec
raises `KeyError`), then return the expanded spec text. -/
def substSpec (q a : String) : Nat → List Char → Except FmtError (List Char)
  | 0, _ => .error .otherError
  | _ + 1, [] => .ok []
  | fuel + 1, '\x7b' :: rest =>
    match readFieldD 0 true false rest with
    | none => .error .valueError
    | some (fld, r2) =>
      match evalFieldInner q a fld with
      | .error e => .error e
      | .ok txt =>
        match substSpec q a fuel r2 with
        | .ok out => .ok (txt ++ out)
        | .error e => .error e
  | _ + 1, '\x7d' :: _ => .error .valueError
  | fuel + 1, c :: rest =>
    match substSpec q a fuel rest with
    | .ok out => .ok (c :: out)
    | .error e => .error e

/-- Evaluate one top-level replacement field: syntax split, name lookup
and accessors, conversion, nested-spec substitution, then spec
formatting — in CPython's order, so e.g. an unknown name preempts an
invalid spec and an invalid format code in an earlier field preempts a
later field's `KeyError`. -/
def evalField (q a : String) (field : List Char) : Except FmtError (List Char) :=
  match splitFieldParts field with
  | .error e => .error e
  | .ok (namePart, conv, spOpt) =>
    match lookupAndAccess q a namePart with
    | .error e => .error e
    | .ok v1 =>
      match applyConv v1 conv with
      | .error e => .error e
      | .ok v2 =>
        match spOpt with
        | none => .ok v2
        | some sp =>
          match substSpec q a (sp.length + 1) sp with
          | .error e => .error e
          | .ok sp2 => formatStrSpec v2 sp2

/-- Fuel-indexed interpreter of `template.format(question=q, answer=a)`
with Python's brace rules: `\x7b\x7b`/`\x7d\x7d` escape to literal
braces, a lone closing brace is a `ValueError`, an unmatched opening
brace is a `ValueError`, and fields are processed left to right with
the first failing field's error surfacing. -/
def goFmt (q a : String) : Nat → List Char → Except FmtError (List Char)
  | 0, _ => .error .otherError
  | _ + 1, [] => .ok []
  | fuel + 1, '\x7b' :: '\x7b' :: rest =>
    match goFmt q a fuel rest with
    | .ok out => .ok ('\x7b' :: out)
    | .error e => .error e
  | fuel + 1, '\x7d' :: '\x7d' :: rest =>
    match goFmt q a fuel rest with
    | .ok out => .ok ('\x7d' :: out)
    | .error e => .error e
  | _ + 1, '\x7d' :: _ => .error .valueError
  | fuel + 1, '\x7b' :: rest =>
    match readFieldD 0 true false rest with
    | none => .error .valueError
    | some (field, r2) =>
      match evalField q a field with
      | .error e => .error e
      | .ok txt =>
        match goFmt q a fuel r2 with
        | .ok out => .ok (txt ++ out)
        | .error e => .error e
  | fuel + 1, c :: rest =>
    match goFmt q a fuel rest with
    | .ok out => .ok (c :: out)
    | .error e => .error e

/-- Python `template.format(question=q, answer=a)`. -/
def pyFormat (tmpl q a : String) : Except FmtError String :=
  String.mk <$> goFmt q a (tmpl.data.length + 1) tmpl.data

/-- The hardcoded fallback prompt built when formatting raises
`KeyError`. -/
def fallback_prompt (q a : String) : String :=
  "The user is answering: \x27" ++ q ++ "\x27. Correct answer: \x27" ++ a ++
    "\x27. Evaluate their response."

/-- The add-on's `display_question`, restricted to its history effect:
seed `conversation_history` with the single system message.  A
formatting failure other than `KeyError` propagates. -/
def display_question (tmpl q a : String) : Except FmtError (List Message) :=
  match pyFormat tmpl q a with
  | .ok s => .ok [⟨.system, s⟩]
  | .error (.keyError _) => .ok [⟨.system, fallback_prompt q a⟩]
  | .error e => .error e

/-! ## User turn: `send_message` -/

/-- The history effect of `send_message`: blank input (empty after
`strip`) is a no-op, otherwise the user message is appended verbatim. -/
def send_message (hist : List Message) (text : String) : List Message :=
  if stripStr text = "" then hist else hist ++ [⟨.user, text⟩]

/-! ## Assistant turn, non-streaming path: `add_assistant_response` -/

/-- The echo filter plus history append of `add_assistant_response`:
clean the raw text; if it starts with a case-insensitive `question:`
marker or the lowercased question occurs in the first 30 characters,
drop the lines starting with that marker; append only when the result
is non-blank.  The second component is the emitted display event. -/
def assistantFiltered (question response : String) : String :=
  let cleaned := clean_response_text response
  if strStarts (lowerStr cleaned) ("question:") ||
      strContains (strTake (lowerStr cleaned) 30) (lowerStr question) then
    String.mk (joinNlChars (((splitNlChars cleaned.data).filter
      (fun line => !(strStarts (lowerStr (String.mk line)) ("question:"))))))
  else cleaned

/-- The append-and-emit step of `add_assistant_response`. -/
def add_assistant_response (question : String) (hist : List Message)
    (response : String) : List Message × Option String :=
  let cleaned := assistantFiltered question response
  if stripStr cleaned ≠ "" then (hist ++ [⟨.assistant, cleaned⟩], some cleaned)
  else (hist, none)

/-! ## JSON values and `json.loads`

Numbers are kept as their raw lexical text (no claim depends on numeric
value beyond truthiness).  Objects are field lists; duplicate keys
resolve to the last occurrence, as in Python.
-/

/-- JSON values. -/
inductive Json where
  | null
  | bool (b : Bool)
  | num (raw : String)
  | str (s : String)
  | arr (elems : List Json)
  | obj (fields : List (String × Json))

/-- JSON structural whitespace. -/
def isJsonWs : Char → Bool
  | ' ' | '\t' | '\n' | '\r' => true
  | _ => false

/-- Drop leading JSON whitespace. -/
def skipWs (l : List Char) : List Char :=
  l.dropWhile isJsonWs

/-- Value of a hexadecimal digit. -/
def hexVal (c : Char) : Option Nat :=
  let n := c.toNat
  if 48 ≤ n ∧ n ≤ 57 then some (n - 48)
  else if 97 ≤ n ∧ n ≤ 102 then some (n - 87)
  else if 65 ≤ n ∧ n ≤ 70 then some (n - 55)
  else none

/-- The table of two-character JSON string escapes. -/
def escTable : List (Char × Char) :=
  [('"', '"'), ('\\', '\\'), ('/', '/'), ('b', '\x08'), ('f', '\x0c'),
    ('n', '\n'), ('r', '\r'), ('t', '\t')]

/-- Single-character string escapes of JSON. -/
def escChar (c : Char) : Option Char :=
  (escTable.find? (fun p => p.1 == c)).map Prod.snd

/-- Parse the body of a JSON string after the opening quote: returns the
decoded characters and the input after the closing quote.  Raw control
characters and invalid escapes are rejected, as in `json.loads`.  A
high-surrogate `u` escape followed by a low-surrogate `u` escape is
combined into the one code point `json.loads` produces; Python keeps a
lone surrogate as a surrogate code unit, which a Lean character cannot
hold, so a lone surrogate decodes to the null character here (no claim
evaluates on one).  Fuel at least the input length plus one makes the
fuel branch unreachable. -/
def parseStrBody : Nat → List Char → Option (List Char × List Char)
  | 0, _ => none
  | _ + 1, [] => none
  | _ + 1, '"' :: rest => some ([], rest)
  | fuel + 1, '\\' :: 'u' :: h1 :: h2 :: h3 :: h4 :: rest =>
    match hexVal h1, hexVal h2, hexVal h3, hexVal h4 with
    | some a, some b, some c, some d =>
      let hi := ((a * 16 + b) * 16 + c) * 16 + d
      if 0xD800 ≤ hi ∧ hi ≤ 0xDBFF then
        match rest with
        | '\\' :: 'u' :: g1 :: g2 :: g3 :: g4 :: rest2 =>
          match hexVal g1, hexVal g2, hexVal g3, hexVal g4 with
          | some a2, some b2, some c2, some d2 =>
            let lo := ((a2 * 16 + b2) * 16 + c2) * 16 + d2
            if 0xDC00 ≤ lo ∧ lo ≤ 0xDFFF then
              match parseStrBody fuel rest2 with
              | some (cs, r) =>
                some (Char.ofNat (0x10000 + (hi - 0xD800) * 0x400 + (lo - 0xDC00)) :: cs, r)
              | none => none
            else
              match parseStrBody fuel rest with
              | some (cs, r) => some (Char.ofNat hi :: cs, r)
              | none => none
          | _, _, _, _ =>
            match parseStrBody fuel rest with
            | some (cs, r) => some (Char.ofNat hi :: cs, r)
            | none => none
        | _ =>
          match parseStrBody fuel rest with
          | some (cs, r) => some (Char.ofNat hi :: cs, r)
          | none => none
      else
        match parseStrBody fuel rest with
        | some (cs, r) => some (Char.ofNat hi :: cs, r)
        | none => none
    | _, _, _, _ => none
  | fuel + 1, '\\' :: e :: rest =>
    match escChar e with
    | some c =>
      match parseStrBody fuel rest with
      | some (cs, r) => some (c :: cs, r)
      | none => none
    | none => none
  | fuel + 1, c :: rest =>
    if 32 ≤ c.toNat then
      match parseStrBody fuel rest with
      | some (cs, r) => some (c :: cs, r)
      | none => none
    else none

/-- Parse the exponent part of a JSON number (possibly absent). -/
def parseExpPart : List Char → Option (List Char × List Char)
  | 'e' :: '-' :: c :: rest =>
    if c.isDigit then
      let (ds, r) := (c :: rest).span Char.isDigit
      some ('e' :: '-' :: ds, r)
    else none
  | 'e' :: '+' :: c :: rest =>
    if c.isDigit then
      let (ds, r) := (c :: rest).span Char.isDigit
      some ('e' :: '+' :: ds, r)
    else none
  | 'e' :: c :: rest =>
    if c.isDigit then
      let (ds, r) := (c :: rest).span Char.isDigit
      some ('e' :: ds, r)
    else none
  | 'E' :: '-' :: c :: rest =>
    if c.isDigit then
      let (ds, r) := (c :: rest).span Char.isDigit
      some ('E' :: '-' :: ds, r)
    else none
  | 'E' :: '+' :: c :: rest =>
    if c.isDigit then
      let (ds, r) := (c :: rest).span Char.isDigit
      some ('E' :: '+' :: ds, r)
    else none
  | 'E' :: c :: rest =>
    if c.isDigit then
      let (ds, r) := (c :: rest).span Char.isDigit
      some ('E' :: ds, r)
    else none
  | l => some ([], l)

/-- Parse the fraction-and-exponent tail of a JSON number. -/
def parseFracPart : List Char → Option (List Char × List Char)
  | '.' :: c :: rest =>
    if c.isDigit then
      let (ds, r) := (c :: rest).span Char.isDigit
      match parseExpPart r with
      | some (es, r2) => some ('.' :: ds ++ es, r2)
      | none => none
    else none
  | '.' :: [] => none
  | l => parseExpPart l

/-- Parse a JSON number, returning its raw text and the rest. -/
def parseNum (l : List Char) : Option (List Char × List Char) :=
  match l with
  | '-' :: r =>
    match parseNumBody r with
    | some (cs, r2) => some ('-' :: cs, r2)
    | none => none
  | r => parseNumBody r
where
  /-- Unsigned part: `0` or a nonzero-led digit run, then fraction. -/
  parseNumBody : List Char → Option (List Char × List Char)
  | '0' :: r =>
    match parseFracPart r with
    | some (fs, r2) => some ('0' :: fs, r2)
    | none => none
  | c :: r =>
    if c.isDigit then
      let (ds, r2) := r.span Char.isDigit
      match parseFracPart r2 with
      | some (fs, r3) => some (c :: ds ++ fs, r3)
      | none => none
    else none
  | [] => none

/-- Parse the items of a non-empty JSON array given a value parser. -/
def parseItems (pv : List Char → Option (Json × List Char)) :
    Nat → List Char → Option (List Json × List Char)
  | 0, _ => none
  | fuel + 1, l =>
    match pv l with
    | none => none
    | some (v, r) =>
      match skipWs r with
      | ',' :: r2 =>
        match parseItems pv fuel r2 with
        | some (vs, r3) => some (v :: vs, r3)
        | none => none
      | ']' :: r2 => some ([v], r2)
      | _ => none

/-- Parse the members of a non-empty JSON object given a value parser. -/
def parseMembers (pv : List Char → Option (Json × List Char)) :
    Nat → List Char → Option (List (String × Json) × List Char)
  | 0, _ => none
  | fuel + 1, l =>
    match skipWs l with
    | '"' :: rest =>
      match parseStrBody (rest.length + 1) rest with
      | none => none
      | some (key, r1) =>
        match skipWs r1 with
        | ':' :: r2 =>
          match pv r2 with
          | none => none
          | some (v, r3) =>
            match skipWs r3 with
            | ',' :: r4 =>
              match parseMembers pv fuel r4 with
              | some (ms, r5) => some ((String.mk key, v) :: ms, r5)
              | none => none
            | '\x7d' :: r4 => some ([(String.mk key, v)], r4)
            | _ => none
        | _ => none
    | _ => none

/-- Fuel-indexed JSON value parser.  Like `json.loads` it also accepts
the non-standard constants `NaN`, `Infinity` and `-Infinity`, kept here
as `Json.num` with their lexical text. -/
def parseVal : Nat → List Char → Option (Json × List Char)
  | 0, _ => none
  | fuel + 1, input =>
    match skipWs input with
    | '"' :: rest =>
      match parseStrBody (rest.length + 1) rest with
      | some (cs, r) => some (Json.str (String.mk cs), r)
      | none => none
    | '\x7b' :: rest =>
      match skipWs rest with
      | '\x7d' :: r2 => some (Json.obj [], r2)
      | _ =>
        match parseMembers (parseVal fuel) fuel rest with
        | some (ms, r2) => some (Json.obj ms, r2)
        | none => none
    | '[' :: rest =>
      match skipWs rest with
      | ']' :: r2 => some (Json.arr [], r2)
      | _ =>
        match parseItems (parseVal fuel) fuel rest with
        | some (vs, r2) => some (Json.arr vs, r2)
        | none => none
    | 't' :: 'r' :: 'u' :: 'e' :: rest => some (Json.bool true, rest)
    | 'f' :: 'a' :: 'l' :: 's' :: 'e' :: rest => some (Json.bool false, rest)
    | 'n' :: 'u' :: 'l' :: 'l' :: rest => some (Json.null, rest)
    | 'N' :: 'a' :: 'N' :: rest => some (Json.num (String.mk ['N', 'a', 'N']), rest)
    | 'I' :: 'n' :: 'f' :: 'i' :: 'n' :: 'i' :: 't' :: 'y' :: rest =>
      some (Json.num (String.mk ['I', 'n', 'f', 'i', 'n', 'i', 't', 'y']), rest)
    | '-' :: 'I' :: 'n' :: 'f' :: 'i' :: 'n' :: 'i' :: 't' :: 'y' :: rest =>
      some (Json.num (String.mk ['-', 'I', 'n', 'f', 'i', 'n', 'i', 't', 'y']), rest)
    | l =>
      match parseNum l with
      | some (cs, r) => some (Json.num (String.mk cs), r)
      | none => none

/-- Python `json.loads`: parse one value and require only whitespace
after it. -/
def jsonParse (s : String) : Option Json :=
  match parseVal (s.data.length + 1) s.data with
  | some (v, rest) => if skipWs rest = [] then some v else none
  | none => none

/-! ## Python dictionary/sequence operations on JSON values -/

/-- Python exceptions that can escape the decoding code. -/
inductive PyExc where
  | typeError
  | keyError (k : String)
  | attributeError
  | indexError
deriving DecidableEq

/-- Dictionary lookup; with duplicate keys the last occurrence wins. -/
def jLookup (fields : List (String × Json)) (k : String) : Option Json :=
  match fields with
  | [] => none
  | (k2, v) :: rest =>
    match jLookup rest k with
    | some v2 => some v2
    | none => if k2 = k then some v else none

/-- Python `key in value` for a string key: key containment for dicts,
element equality for lists, substring test for strings, `TypeError`
otherwise. -/
def pyInStr (key : String) : Json → Except PyExc Bool
  | .obj fs => .ok (fs.any (fun p => p.1 == key))
  | .arr xs => .ok (xs.any (fun j => match j with | .str s => s == key | _ => false))
  | .str s => .ok (strContains s key)
  | _ => .error .typeError

/-- Python `value[key]` for a string key. -/
def pySubscriptStr (j : Json) (key : String) : Except PyExc Json :=
  match j with
  | .obj fs =>
    match jLookup fs key with
    | some v => .ok v
    | none => .error (.keyError key)
  | _ => .error .typeError

/-- Python `value[0]`. -/
def pySubscript0 : Json → Except PyExc Json
  | .arr (x :: _) => .ok x
  | .arr [] => .error .indexError
  | .str s => if s = "" then .error .indexError else .ok (.str (strTake s 1))
  | .obj _ => .error (.keyError "0")
  | _ => .error .typeError

/-- Python `value.get(key, default)`; non-dicts have no `.get`. -/
def pyGet (j : Json) (key : String) (dflt : Json) : Except PyExc Json :=
  match j with
  | .obj fs => .ok ((jLookup fs key).getD dflt)
  | _ => .error .attributeError

/-- Whether a JSON number's lexical text denotes a truthy Python float
or int: any nonzero significand digit, or the `NaN`/`Infinity`
constants (both truthy in Python). -/
def numTruthy (raw : String) : Bool :=
  (raw.data.takeWhile (fun c => c != 'e' && c != 'E')).any
      (fun c => c.isDigit && c != '0') ||
    raw.data.any (fun c => c == 'N' || c == 'I')

/-- Python truthiness of a JSON value. -/
def pyTruthy : Json → Bool
  | .null => false
  | .bool b => b
  | .num raw => numTruthy raw
  | .str s => !(s == "")
  | .arr xs => !xs.isEmpty
  | .obj fs => !fs.isEmpty

/-! ## Stream decoder: the body of `handle_stream_response`

Per received line the source skips blank lines and lines without the
`data: ` marker, strips the marker, parses JSON (a parse failure only
skips the line), then evaluates
`json_data["choices"][0].get("delta", \x7b\x7d).get("content", "")`
and concatenates truthy content.  Any exception other than
`json.JSONDecodeError` escapes the loop.
-/

/-- The SSE data marker. -/
def dataMarker : String := "data: "

/-- Evaluate the delta-extraction statements of the loop body on one
parsed JSON value: `.ok (some s)` yields `s`, `.ok none` contributes
nothing, `.error e` is an exception escaping the whole loop. -/
def extractDelta (json_data : Json) : Except PyExc (Option String) :=
  match pyInStr ("choices") json_data with
  | .error e => .error e
  | .ok false => .ok none
  | .ok true =>
    match pySubscriptStr json_data ("choices") with
    | .error e => .error e
    | .ok choices =>
      if pyTruthy choices then
        match pySubscript0 choices with
        | .error e => .error e
        | .ok c0 =>
          match pyGet c0 ("delta") (Json.obj []) with
          | .error e => .error e
          | .ok delta =>
            match pyGet delta ("content") (Json.str "") with
            | .error e => .error e
            | .ok content =>
              if pyTruthy content then
                match content with
                | Json.str s => .ok (some s)
                | _ => .error .typeError
              else .ok none
      else .ok none

/-- Processing of one raw line of the stream. -/
def processLine (line : String) : Except PyExc (Option String) :=
  if line = "" then .ok none
  else if strStarts line dataMarker then
    match jsonParse (strDrop line 6) with
    | none => .ok none
    | some j => extractDelta j
  else .ok none

/-- Whether line processing completed without an exception. -/
def lineOk (line : String) : Bool :=
  match processLine line with
  | .ok _ => true
  | .error _ => false

/-- The decoding loop: processes lines in order, accumulating
`full_response` and the list of yielded deltas; an exception stops the
loop, keeping what was accumulated. -/
def streamLoop : List String → String → List String →
    String × List String × Option PyExc
  | [], full, ys => (full, ys, none)
  | l :: rest, full, ys =>
    match processLine l with
    | .error e => (full, ys, some e)
    | .ok none => streamLoop rest full ys
    | .ok (some s) => streamLoop rest (full ++ s) (ys ++ [s])

/-- Result of one streaming attempt. -/
structure StreamRun where
  newHistory : List Message
  yielded : List String
  full : String
  errShown : Option String

/-- The whole of `handle_stream_response` as a history/display
transformer: `lines` are the lines delivered before the transport
either ended (`transportErr = none`) or raised (`transportErr = some
m`).  The `finally` block commits the accumulated text (cleaned)
whenever it is non-empty, error or not. -/
def handle_stream_response (hist : List Message) (lines : List String)
    (transportErr : Option String) : StreamRun :=
  match streamLoop lines "" [] with
  | (full, ys, exc) =>
    let shown : Option String :=
      match exc with
      | some _ => some ("<b>Error:</b> Streaming failed: (exception)")
      | none => transportErr.map (fun m => "<b>Error:</b> Streaming failed: " ++ m)
    let hist2 :=
      if full ≠ "" then hist ++ [⟨Role.assistant, clean_response_text full⟩]
      else hist
    ⟨hist2, ys, full, shown⟩

/-- The per-line contract of the spec's Stream Decoder: skip blank
lines, skip unmarked lines, strip the marker, skip JSON parse failures,
and yield `choices[0].delta.content` when present and non-empty. -/
def deltaSpec : Json → Option String
  | .obj fs =>
    match jLookup fs ("choices") with
    | some (.arr (Json.obj c0 :: _)) =>
      match jLookup c0 ("delta") with
      | some (.obj dfs) =>
        match jLookup dfs ("content") with
        | some (.str s) => if s = "" then none else some s
        | _ => none
      | _ => none
    | _ => none
  | _ => none

/-- The spec-side decoded delta of one line. -/
def lineDelta (line : String) : Option String :=
  if line = "" then none
  else if strStarts line dataMarker then
    match jsonParse (strDrop line 6) with
    | none => none
    | some j => deltaSpec j
  else none

/-! ## Non-streaming path: `extract_response_text` -/

/-- The fixed string returned on an unrecognized response shape. -/
def unexpectedFormatMsg : String :=
  "Error: Unexpected response format from LLM service."

/-- The add-on's `extract_response_text`, with Python's evaluation
semantics made explicit: the returned value is the Python object the
function returns, and exceptions raised by the subscript chains are
surfaced as `.error`. -/
def extract_response_text (response : Json) : Except PyExc Json :=
  match pyInStr ("choices") response with
  | .error e => .error e
  | .ok false => .ok (.str unexpectedFormatMsg)
  | .ok true =>
    match pySubscriptStr response ("choices") with
    | .error e => .error e
    | .ok choices =>
      if pyTruthy choices then
        match pySubscript0 choices with
        | .error e => .error e
        | .ok c0 =>
          match pyInStr ("message") c0 with
          | .error e => .error e
          | .ok true =>
            match pySubscriptStr c0 ("message") with
            | .error e => .error e
            | .ok msg => pySubscriptStr msg ("content")
          | .ok false =>
            match pyInStr ("text") c0 with
            | .error e => .error e
            | .ok true => pySubscriptStr c0 ("text")
            | .ok false => .ok (.str unexpectedFormatMsg)
      else .ok (.str unexpectedFormatMsg)

/-- The non-streaming branch of `process_response` after a 200 reply:
extract the text and hand it to `add_assistant_response`.  A non-string
extraction result would make `clean_response_text` raise. -/
def process_non_streaming (question : String) (hist : List Message)
    (body : Json) : Except PyExc (List Message × Option String) :=
  match extract_response_text body with
  | .error e => .error e
  | .ok (.str s) => .ok (add_assistant_response question hist s)
  | .ok _ => .error .typeError

/-! ## Provider selection: the request built by `process_response`

The source selects the hosted backend only when `use_openai` is set AND
the configured key is a non-empty (truthy) string; otherwise it posts
to the configured LM Studio URL with no auth header and the fixed
`local-model` identifier.  No configuration check raises here.
-/

/-- The configuration snapshot read by one send. -/
structure ReqConfig where
  use_openai : Bool
  openai_api_key : String
  openai_model : String
  llm_studio_url : String
  stream : Bool
deriving DecidableEq

/-- The normalized request a send attempt posts. -/
structure HttpRequest where
  url : String
  authHeader : Option String
  model : String
  messages : List Message
  temperatureLit : String
  maxTokens : Nat
  stream : Bool
deriving DecidableEq

/-- The hosted endpoint URL. -/
def openaiUrl : String := "https://api.openai.com/v1/chat/completions"

/-- Request construction of `process_response` (one attempt). -/
def build_request (cfg : ReqConfig) (hist : List Message) : HttpRequest :=
  if cfg.use_openai && !(cfg.openai_api_key == "") then
    ⟨openaiUrl, some ("Bearer " ++ cfg.openai_api_key), cfg.openai_model,
      hist, "0.5", 150, cfg.stream⟩
  else
    ⟨cfg.llm_studio_url, none, "local-model", hist, "0.5", 150, cfg.stream⟩

/-! ## Retry controller: the `while retries < max_retries` loop

One attempt's observable outcome is drawn from an oracle indexed by the
attempt number.  Sleeps record the fixed 1-second backoff.  A non-200
status raises the add-on's own exception classes, which are caught by
the generic handler (not the transport-retry handlers), so only
transport `ConnectionError`/`Timeout` are retried.
-/

/-- Transport-level outcome of one `requests.post` attempt. -/
inductive Outcome where
  | connErr
  | timeoutErr
  | http (status : Nat) (body : Json)
  | otherExc (msg : String)

/-- Terminal result of the send loop. -/
inductive SendOutcome where
  | handled (body : Json)
  | exhausted
  | aborted (msg : String)

/-- Observable trace of one call to `process_response`. -/
structure SendTrace where
  attempts : Nat
  sleeps : List Nat
  displayed : List String
  outcome : SendOutcome

/-- Error line shown for an exhausted connection failure. -/
def connFailMsg : String :=
  "<b>Error:</b> Connection failed. Make sure the LLM service is running."

/-- Error line shown for an exhausted timeout. -/
def timeoutMsg : String := "<b>Error:</b> Request timed out."

/-- Error line shown via the generic exception handler. -/
def errDisp (m : String) : String := "<b>Error:</b> " ++ m

/-- The retry loop body.  `fuel = max_retries - retries` and the number
of attempts already made equals `retries`, since every continuing
iteration came from a retryable failure. -/
def sendGo (oc : Nat → Outcome) (maxRetries : Nat) :
    Nat → Nat → List Nat → List String → SendTrace
  | 0, attempts, sleeps, errs => ⟨attempts, sleeps, errs, .exhausted⟩
  | fuel + 1, attempts, sleeps, errs =>
    match oc attempts with
    | .connErr =>
      let errs2 := if maxRetries ≤ attempts + 1 then errs ++ [connFailMsg] else errs
      sendGo oc maxRetries fuel (attempts + 1) (sleeps ++ [1]) errs2
    | .timeoutErr =>
      let errs2 := if maxRetries ≤ attempts + 1 then errs ++ [timeoutMsg] else errs
      sendGo oc maxRetries fuel (attempts + 1) (sleeps ++ [1]) errs2
    | .http status body =>
      if status = 401 then
        ⟨attempts + 1, sleeps, errs ++ [errDisp ("Invalid API key")],
          .aborted ("Invalid API key")⟩
      else if status = 200 then
        ⟨attempts + 1, sleeps, errs, .handled body⟩
      else
        ⟨attempts + 1, sleeps, errs ++ [errDisp ("API error: " ++ Nat.repr status)],
          .aborted ("API error: " ++ Nat.repr status)⟩
    | .otherExc m =>
      ⟨attempts + 1, sleeps, errs ++ [errDisp m], .aborted m⟩

/-- The whole retry loop of `process_response`. -/
def process_response (oc : Nat → Outcome) (maxRetries : Nat) : SendTrace :=
  sendGo oc maxRetries maxRetries 0 [] []

/-- Retryable transport failures. -/
def retryable (o : Outcome) : Prop :=
  o = .connErr ∨ o = .timeoutErr

instance (o : Outcome) : Decidable (retryable o) := by
  unfold retryable
  cases o <;> simp <;> infer_instance

/-- Displayed message for an exhausted retryable failure. -/
def retryMsgOf : Outcome → String
  | .connErr => connFailMsg
  | .timeoutErr => timeoutMsg
  | .http _ _ => timeoutMsg
  | .otherExc _ => timeoutMsg

/-! ## Reachable session states

After `display_question` seeds the history, the only operations that
touch `conversation_history` are `send_message` (user append), the
non-streaming `add_assistant_response`, and the `finally` block of
`handle_stream_response`. -/

/-- Histories reachable in a session whose card question is `q`. -/
inductive Reachable (q : String) : List Message → Prop
  | init (tmpl a : String) (msgs : List Message)
      (h : display_question tmpl q a = .ok msgs) : Reachable q msgs
  | user (hist : List Message) (text : String) (h : Reachable q hist) :
      Reachable q (send_message hist text)
  | assistantDirect (hist : List Message) (raw : String) (h : Reachable q hist) :
      Reachable q (add_assistant_response q hist raw).1
  | assistantStream (hist : List Message) (lines : List String)
      (terr : Option String) (h : Reachable q hist) :
      Reachable q (handle_stream_response hist lines terr).newHistory

/-! ## Shared concrete stream lines used by several claims -/

/-- SSE line whose delta content is `Hel`. -/
def sseHelLine : String :=
  "data: \x7b\"choices\":[\x7b\"delta\":\x7b\"content\":\"Hel\"\x7d\x7d]\x7d"

/-- SSE line whose delta content is `lo`. -/
def sseLoLine : String :=
  "data: \x7b\"choices\":[\x7b\"delta\":\x7b\"content\":\"lo\"\x7d\x7d]\x7d"

/-- The closing sentinel line of the OpenAI stream format. -/
def sseDoneLine : String := "data: [DONE]"

/-- SSE line whose delta content cleans to the empty string. -/
def sseThinkLine : String :=
  "data: \x7b\"choices\":[\x7b\"delta\":\x7b\"content\":\"<think>x</think>\"\x7d\x7d]\x7d"

/-! ## Claim C2 — provider fallback instead of ConfigurationError -/

/-- Claim C2, counterexample: with the Hosted provider selected and the
key empty, `process_response` raises no `ConfigurationError`; it builds
a request for the Local backend (local URL, no auth header, model
`local-model`), contradicting the claim that the operation fails
without sending a request. -/
theorem C2_cex :
    build_request ⟨true, "", "gpt-4", "http://localhost:1234/v1/chat/completions", true⟩ [] =
      ⟨"http://localhost:1234/v1/chat/completions", none, "local-model", [], "0.5", 150, true⟩ := by
  decide

/-- Claim C2, amended: whenever the Hosted provider is selected and no
API key is configured, the send silently falls back to the Local
provider: the request targets the configured local URL with no
authorization header and the fixed `local-model` identifier, and no
error is raised. -/
theorem C2_thm (cfg : ReqConfig) (hist : List Message)
    (h1 : cfg.use_openai = true) (h2 : cfg.openai_api_key = "") :
    build_request cfg hist =
      ⟨cfg.llm_studio_url, none, "local-model", hist, "0.5", 150, cfg.stream⟩ := by
  simp [build_request, h1, h2]

/-- Claim C2, witness for the amended theorem at a concrete
configuration. -/
theorem C2_wit :
    build_request ⟨true, "", "gpt-5", "http://localhost:9999/x", false⟩ [⟨Role.system, "s"⟩] =
      ⟨"http://localhost:9999/x", none, "local-model", [⟨Role.system, "s"⟩], "0.5", 150, false⟩ :=
  C2_thm ⟨true, "", "gpt-5", "http://localhost:9999/x", false⟩ [⟨Role.system, "s"⟩] rfl rfl

/-! ## Claim C5 — HTTP 401 aborts immediately, no retry -/

/-- An attempt that sees HTTP 401 ends the loop at once, whatever fuel
remains. -/
theorem sendGo_abort401 (oc : Nat → Outcome) (n k : Nat) (body : Json)
    (hk : oc k = .http 401 body) (hkn : k < n)
    (hr : ∀ i, i < k → retryable (oc i)) :
    ∀ (fuel a : Nat) (sl : List Nat) (errs : List String),
    a + fuel = n → a ≤ k →
    sendGo oc n fuel a sl errs =
      ⟨k + 1, sl ++ List.replicate (k - a) 1,
        errs ++ [errDisp ("Invalid API key")], .aborted ("Invalid API key")⟩ := by
  intro fuel
  induction fuel with
  | zero => intro a sl errs hsum hak; omega
  | succ f ih =>
    intro a sl errs hsum hak
    rcases Nat.eq_or_lt_of_le hak with hek | hlt
    · subst hek
      simp [sendGo, hk]
    · have hcond : ¬ n ≤ a + 1 := by omega
      have hka : k - a = (k - (a + 1)) + 1 := by omega
      have hih := ih (a + 1) (sl ++ [1]) errs (by omega) (by omega)
      rcases hr a hlt with h | h
      · simp [sendGo, h, hcond, hih, hka, List.replicate_succ, List.append_assoc]
      · simp [sendGo, h, hcond, hih, hka, List.replicate_succ, List.append_assoc]

/-- Claim C5: an attempt that returns HTTP 401 raises the add-on's
`APIKeyError`, which the generic handler displays before breaking out
of the loop: the auth failure surfaces at once with no further attempt
and no backoff sleep, independently of `max_retries`; in particular a
first-attempt 401 means exactly one attempt and no sleeps. -/
theorem C5_thm (oc : Nat → Outcome) (n : Nat) (hn : 1 ≤ n) :
    (∀ body, oc 0 = .http 401 body →
      process_response oc n =
        ⟨1, [], [errDisp ("Invalid API key")], .aborted ("Invalid API key")⟩) ∧
    (∀ k body, k < n → (∀ i, i < k → retryable (oc i)) → oc k = .http 401 body →
      process_response oc n =
        ⟨k + 1, List.replicate k 1, [errDisp ("Invalid API key")],
          .aborted ("Invalid API key")⟩) := by
  constructor
  · intro body h0
    have := sendGo_abort401 oc n 0 body h0 (by omega) (by omega) n 0 [] []
      (by omega) (by omega)
    simpa [process_response] using this
  · intro k body hkn hr hk
    have := sendGo_abort401 oc n k body hk hkn hr n 0 [] [] (by omega) (by omega)
    simpa [process_response] using this

/-- Claim C5, witness: a 401 on the first attempt with `max_retries =
5` still gives exactly one attempt and no sleeps. -/
theorem C5_wit :
    process_response (fun _ => Outcome.http 401 Json.null) 5 =
      ⟨1, [], [errDisp ("Invalid API key")], .aborted ("Invalid API key")⟩ :=
  (C5_thm (fun _ => Outcome.http 401 Json.null) 5 (by decide)).1 Json.null rfl

/-! ## Claim C8 — template fallback happens on KeyError only -/

/-- Claim C8, counterexample: a template that merely lacks the
placeholders formats successfully, so no fallback occurs and the seeded
system message contains neither the question nor the answer, contrary
to the claim that every malformed (placeholder-missing) template falls
back to a message containing both. -/
theorem C8_cex :
    display_question ("Be a strict tutor.") ("What is 2+2?") ("4") =
      .ok [⟨Role.system, "Be a strict tutor."⟩] ∧
    strContains ("Be a strict tutor.") ("What is 2+2?") = false ∧
    strContains ("Be a strict tutor.") ("4") = false := by
  refine ⟨by rfl, by decide, by decide⟩

/-- Claim C8, amended: for every template whose formatting raises
`KeyError` (an unknown placeholder name), `display_question` does not
propagate the error: it seeds history index 0 with the non-empty
hardcoded fallback system message, which contains the question and the
answer verbatim. -/
theorem C8_thm (tmpl q a k : String)
    (h : pyFormat tmpl q a = .error (.keyError k)) :
    display_question tmpl q a = .ok [⟨Role.system, fallback_prompt q a⟩] ∧
    fallback_prompt q a ≠ "" ∧
    q.data <:+: (fallback_prompt q a).data ∧
    a.data <:+: (fallback_prompt q a).data := by
  have hdata : (fallback_prompt q a).data =
      ("The user is answering: \x27").data ++ q.data ++
        ("\x27. Correct answer: \x27").data ++ a.data ++
        ("\x27. Evaluate their response.").data := by
    simp [fallback_prompt, String.data_append]
  refine ⟨by simp [display_question, h], ?_, ?_, ?_⟩
  · intro hempty
    have : (fallback_prompt q a).data = [] := by rw [hempty]
    rw [hdata] at this
    simp at this
  · exact ⟨("The user is answering: \x27").data,
      ("\x27. Correct answer: \x27").data ++ a.data ++
        ("\x27. Evaluate their response.").data, by simp [hdata, List.append_assoc]⟩
  · exact ⟨("The user is answering: \x27").data ++ q.data ++
      ("\x27. Correct answer: \x27").data,
      ("\x27. Evaluate their response.").data, by simp [hdata, List.append_assoc]⟩

/-- Claim C8, witness: a template with the unknown placeholder `topic`
triggers the fallback. -/
theorem C8_wit :
    display_question ("Teach \x7btopic\x7d") ("What is 2+2?") ("4") =
      .ok [⟨Role.system, fallback_prompt ("What is 2+2?") ("4")⟩] ∧
    fallback_prompt ("What is 2+2?") ("4") ≠ "" ∧
    ("What is 2+2?").data <:+: (fallback_prompt ("What is 2+2?") ("4")).data ∧
    ("4").data <:+: (fallback_prompt ("What is 2+2?") ("4")).data :=
  C8_thm ("Teach \x7btopic\x7d") ("What is 2+2?") ("4") ("topic") (by rfl)

/-! ## Claim C1 — partial streamed text is committed, not discarded -/

/-- Claim C1, counterexample: a transport failure after one decoded
delta still commits the partial text `Hel` to the history in the
`finally` block, so the history does not equal its pre-turn value as
the claim requires. -/
theorem C1_cex :
    (handle_stream_response [⟨Role.system, "sys"⟩] [sseHelLine]
        (some "Connection broken")).newHistory =
      [⟨Role.system, "sys"⟩, ⟨Role.assistant, "Hel"⟩] ∧
    [⟨Role.system, "sys"⟩, ⟨Role.assistant, "Hel"⟩] ≠ [(⟨Role.system, "sys"⟩ : Message)] := by
  refine ⟨by decide, by decide⟩

/-- Claim C1, amended: when a streaming send ends in a mid-stream
transport failure, an error is surfaced to the display, and the partial
text is NOT discarded from history: whenever the accumulated text is
non-empty it is cleaned and committed as an assistant message; the
history is unchanged only when nothing had been accumulated. -/
theorem C1_thm (hist : List Message) (lines : List String) (msg : String) :
    ((handle_stream_response hist lines (some msg)).errShown).isSome = true ∧
    ((handle_stream_response hist lines (some msg)).full = "" →
      (handle_stream_response hist lines (some msg)).newHistory = hist) ∧
    ((handle_stream_response hist lines (some msg)).full ≠ "" →
      (handle_stream_response hist lines (some msg)).newHistory =
        hist ++ [⟨Role.assistant,
          clean_response_text ((handle_stream_response hist lines (some msg)).full)⟩]) := by
  rcases h : streamLoop lines "" [] with ⟨full, ys, exc⟩
  refine ⟨?_, ?_, ?_⟩
  · simp only [handle_stream_response, h]
    cases exc <;> simp
  · intro hfull
    simp only [handle_stream_response, h] at hfull ⊢
    simp [hfull]
  · intro hfull
    simp only [handle_stream_response, h] at hfull ⊢
    simp [hfull]

/-- Claim C1, witness: the amended theorem applied to the concrete
failing stream with accumulated text `Hel`. -/
theorem C1_wit :
    (handle_stream_response [] [sseHelLine] (some "boom")).newHistory =
      [] ++ [⟨Role.assistant,
        clean_response_text ((handle_stream_response [] [sseHelLine] (some "boom")).full)⟩] :=
  (C1_thm [] [sseHelLine] ("boom")).2.2 (by decide)

/-! ## Claim C3 — empty-after-cleaning text on the two paths -/

/-- Claim C3, counterexample: on the streaming path the commit guard
tests the raw accumulated text, so a turn whose only delta cleans to
the empty string appends an assistant message with empty content,
contrary to the claim that nothing is appended on either path. -/
theorem C3_cex :
    (handle_stream_response [⟨Role.system, "sys"⟩] [sseThinkLine] none).newHistory =
      [⟨Role.system, "sys"⟩, ⟨Role.assistant, ""⟩] ∧
    [⟨Role.system, "sys"⟩, ⟨Role.assistant, ""⟩] ≠ [(⟨Role.system, "sys"⟩ : Message)] := by
  refine ⟨by decide, by decide⟩

/-- Claim C3, amended: on the non-streaming path, raw text that cleans
to the empty string appends nothing and emits no event; on the
streaming path the guard is on the raw accumulated text: an empty
accumulation appends nothing, but a non-empty accumulation that cleans
to the empty string appends an assistant message with empty content. -/
theorem C3_thm :
    (∀ q hist raw, clean_response_text raw = "" →
      add_assistant_response q hist raw = (hist, none)) ∧
    (∀ hist lines, (handle_stream_response hist lines none).full = "" →
      (handle_stream_response hist lines none).newHistory = hist) ∧
    (∀ hist lines, (handle_stream_response hist lines none).full ≠ "" →
      clean_response_text ((handle_stream_response hist lines none).full) = "" →
      (handle_stream_response hist lines none).newHistory =
        hist ++ [⟨Role.assistant, ""⟩]) := by
  refine ⟨?_, ?_, ?_⟩
  · intro q hist raw hclean
    have hf : assistantFiltered q raw = "" := by
      unfold assistantFiltered
      rw [hclean]
      dsimp only []
      cases hC : (strStarts (lowerStr "") ("question:") ||
          strContains (strTake (lowerStr "") 30) (lowerStr q)) <;> rfl
    unfold add_assistant_response
    dsimp only []
    rw [hf]
    rfl
  · intro hist lines hfull
    rcases h : streamLoop lines "" [] with ⟨full, ys, exc⟩
    simp only [handle_stream_response, h] at hfull ⊢
    simp [hfull]
  · intro hist lines hfull hclean
    rcases h : streamLoop lines "" [] with ⟨full, ys, exc⟩
    simp only [handle_stream_response, h] at hfull hclean ⊢
    simp [hfull, hclean]

/-- Claim C3, witness: the non-streaming conjunct applied to raw text
that is only a think span, and so cleans to nothing. -/
theorem C3_wit :
    add_assistant_response ("What is 2+2?") [⟨Role.system, "sys"⟩] ("<think>x</think>") =
      ([⟨Role.system, "sys"⟩], none) :=
  C3_thm.1 ("What is 2+2?") [⟨Role.system, "sys"⟩] ("<think>x</think>") (by decide)

/-! ## Retry-loop lemmas and Claim C4 -/

/-- When every attempt up to exhaustion fails with a retryable
transport error, the loop runs down its whole fuel, sleeping one second
after every failed attempt and displaying the message of the final
failure. -/
theorem sendGo_allFail (oc : Nat → Outcome) (n : Nat)
    (hr : ∀ i, i < n → retryable (oc i)) :
    ∀ (fuel a : Nat) (sl : List Nat) (errs : List String),
    a + fuel = n → 1 ≤ fuel →
    sendGo oc n fuel a sl errs =
      ⟨n, sl ++ List.replicate fuel 1, errs ++ [retryMsgOf (oc (n - 1))], .exhausted⟩ := by
  intro fuel
  induction fuel with
  | zero => intro a sl errs _ h1; exact absurd h1 (by decide)
  | succ f ih =>
    intro a sl errs hsum _
    have ha : a < n := by omega
    rcases hr a ha with h | h
    · rcases Nat.eq_zero_or_pos f with hf | hf
      · subst hf
        have hcond : n ≤ a + 1 := by omega
        have hlast : n - 1 = a := by omega
        have han : a + 1 = n := by omega
        simp [sendGo, h, hcond, hlast, han, retryMsgOf]
      · have hcond : ¬ n ≤ a + 1 := by omega
        have hih := ih (a + 1) (sl ++ [1]) errs (by omega) (by omega)
        simp [sendGo, h, hcond, hih, List.replicate_succ, List.append_assoc]
    · rcases Nat.eq_zero_or_pos f with hf | hf
      · subst hf
        have hcond : n ≤ a + 1 := by omega
        have hlast : n - 1 = a := by omega
        have han : a + 1 = n := by omega
        simp [sendGo, h, hcond, hlast, han, retryMsgOf]
      · have hcond : ¬ n ≤ a + 1 := by omega
        have hih := ih (a + 1) (sl ++ [1]) errs (by omega) (by omega)
        simp [sendGo, h, hcond, hih, List.replicate_succ, List.append_assoc]

/-- When attempt `k` returns HTTP 200 and the attempts before it fail
retryably, the loop returns the attempt-`k` body after `k + 1` attempts
and `k` backoff sleeps. -/
theorem sendGo_success (oc : Nat → Outcome) (n k : Nat) (body : Json)
    (hk : oc k = .http 200 body) (hkn : k < n)
    (hr : ∀ i, i < k → retryable (oc i)) :
    ∀ (fuel a : Nat) (sl : List Nat) (errs : List String),
    a + fuel = n → a ≤ k →
    sendGo oc n fuel a sl errs =
      ⟨k + 1, sl ++ List.replicate (k - a) 1, errs, .handled body⟩ := by
  intro fuel
  induction fuel with
  | zero => intro a sl errs hsum hak; omega
  | succ f ih =>
    intro a sl errs hsum hak
    rcases Nat.eq_or_lt_of_le hak with hek | hlt
    · subst hek
      simp [sendGo, hk]
    · have hcond : ¬ n ≤ a + 1 := by omega
      have hka : k - a = (k - (a + 1)) + 1 := by omega
      have hih := ih (a + 1) (sl ++ [1]) errs (by omega) (by omega)
      rcases hr a hlt with h | h
      · simp [sendGo, h, hcond, hih, hka, List.replicate_succ, List.append_assoc]
      · simp [sendGo, h, hcond, hih, hka, List.replicate_succ, List.append_assoc]

/-- The loop consults the oracle only on attempt numbers below
`a + fuel`: two oracles that agree there produce identical traces. -/
theorem sendGo_congr (oc oc2 : Nat → Outcome) (n : Nat) :
    ∀ (fuel a : Nat) (sl : List Nat) (errs : List String),
    (∀ i, a ≤ i → i < a + fuel → oc2 i = oc i) →
    sendGo oc2 n fuel a sl errs = sendGo oc n fuel a sl errs := by
  intro fuel
  induction fuel with
  | zero => intro a sl errs _; rfl
  | succ f ih =>
    intro a sl errs hag
    have ha : oc2 a = oc a := hag a (Nat.le_refl a) (by omega)
    rw [sendGo, sendGo, ha]
    cases h : oc a with
    | connErr => exact ih (a + 1) (sl ++ [1]) _ (fun i h1 h2 => hag i (by omega) (by omega))
    | timeoutErr => exact ih (a + 1) (sl ++ [1]) _ (fun i h1 h2 => hag i (by omega) (by omega))
    | http status body => rfl
    | otherExc m => rfl

/-- Claim C4: with `max_retries = n ≥ 1`, (a) if every attempt fails
with a transport `ConnectionError` or `Timeout` the loop performs
exactly `n` attempts separated by fixed 1-second sleeps, surfaces the
message of the last failure, and never consults an `(n+1)`-th attempt
(the trace only depends on the first `n` outcomes); (b) if attempt `k`
(`k < n`) succeeds after `k` retryable failures, the loop returns that
attempt's response after exactly `k + 1` attempts. -/
theorem C4_thm (oc : Nat → Outcome) (n : Nat) (hn : 1 ≤ n) :
    ((∀ i, i < n → retryable (oc i)) →
      process_response oc n =
        ⟨n, List.replicate n 1, [retryMsgOf (oc (n - 1))], .exhausted⟩ ∧
      ∀ oc2 : Nat → Outcome, (∀ i, i < n → oc2 i = oc i) →
        process_response oc2 n = process_response oc n) ∧
    (∀ k body, k < n → (∀ i, i < k → retryable (oc i)) → oc k = .http 200 body →
      process_response oc n =
        ⟨k + 1, List.replicate k 1, [], .handled body⟩) := by
  constructor
  · intro hr
    constructor
    · have := sendGo_allFail oc n hr n 0 [] [] (by omega) hn
      simpa [process_response] using this
    · intro oc2 hag
      unfold process_response
      exact sendGo_congr oc oc2 n n 0 [] [] (fun i h1 h2 => hag i (by omega))
  · intro k body hkn hr hk
    have := sendGo_success oc n k body hk hkn hr n 0 [] [] (by omega) (by omega)
    simpa [process_response] using this

/-- Claim C4, witness: two connection failures then success with
`max_retries = 3` returns the success body on exactly the third
attempt, with two 1-second sleeps. -/
theorem C4_wit :
    process_response
        (fun i => if i < 2 then Outcome.connErr else Outcome.http 200 (Json.str "ok")) 3 =
      ⟨3, List.replicate 2 1, [], .handled (Json.str "ok")⟩ :=
  (C4_thm (fun i => if i < 2 then Outcome.connErr else Outcome.http 200 (Json.str "ok")) 3
      (by decide)).2 2 (Json.str "ok") (by decide)
    (by intro i hi
        have : i < 2 := hi
        simp [this, retryable])
    (by norm_num)

/-! ## Dictionary lemmas and Claim C10 -/

/-- A key whose membership test fails looks up to nothing. -/
theorem jLookup_none_of_any_false {fs : List (String × Json)} {k : String}
    (h : fs.any (fun p => p.1 == k) = false) : jLookup fs k = none := by
  induction fs with
  | nil => rfl
  | cons p rest ih =>
    simp only [List.any_cons, Bool.or_eq_false_iff] at h
    rw [jLookup, ih h.2]
    have : ¬ p.1 = k := by
      intro he
      rw [he] at h
      simp at h
    simp [this]

/-- A successful lookup means the membership test succeeds. -/
theorem any_true_of_jLookup {fs : List (String × Json)} {k : String} {v : Json}
    (h : jLookup fs k = some v) : fs.any (fun p => p.1 == k) = true := by
  by_contra hc
  rw [jLookup_none_of_any_false (Bool.eq_false_iff.mpr hc)] at h
  exact Option.noConfusion h

/-- A failed lookup means the membership test fails. -/
theorem any_false_of_jLookup_none {fs : List (String × Json)} {k : String}
    (h : jLookup fs k = none) : fs.any (fun p => p.1 == k) = false := by
  induction fs with
  | nil => rfl
  | cons p rest ih =>
    rw [jLookup] at h
    rcases hrest : jLookup rest k with _ | v
    · rw [hrest] at h
      have hne : ¬ p.1 = k := by
        intro he
        rw [if_pos he] at h
        exact Option.noConfusion h
      simp [ih hrest, hne]
    · rw [hrest] at h
      exact Option.noConfusion h

/-- Claim C10, counterexample: a response whose first choice has a
`message` object without `content` raises `KeyError`, so
`extract_response_text` is not total on JSON response objects. -/
theorem C10_cex :
    extract_response_text
        (Json.obj [("choices", Json.arr [Json.obj [("message", Json.obj [])]])]) =
      .error (.keyError ("content")) := by
  rfl

/-- Claim C10, amended: on well-shaped inputs the extractor behaves as
claimed — `choices[0].message.content` when the `message` key exists,
else `choices[0].text` when the `text` key exists, else the fixed error
string (also for a missing or empty `choices` array) — and the fixed
error string then flows through the normal assistant-reply path,
being appended as an ordinary assistant message; but the function can
raise (e.g. `KeyError` when `message` lacks `content`), so it is not
total. -/
theorem C10_thm :
    (∀ (fs c0fs mfs : List (String × Json)) (tl : List Json) (v : Json),
      jLookup fs ("choices") = some (.arr (Json.obj c0fs :: tl)) →
      jLookup c0fs ("message") = some (.obj mfs) →
      jLookup mfs ("content") = some v →
      extract_response_text (.obj fs) = .ok v) ∧
    (∀ (fs c0fs : List (String × Json)) (tl : List Json) (v : Json),
      jLookup fs ("choices") = some (.arr (Json.obj c0fs :: tl)) →
      jLookup c0fs ("message") = none →
      jLookup c0fs ("text") = some v →
      extract_response_text (.obj fs) = .ok v) ∧
    (∀ fs : List (String × Json), jLookup fs ("choices") = none →
      extract_response_text (.obj fs) = .ok (.str unexpectedFormatMsg)) ∧
    (∀ fs : List (String × Json), jLookup fs ("choices") = some (.arr []) →
      extract_response_text (.obj fs) = .ok (.str unexpectedFormatMsg)) ∧
    (process_non_streaming ("What is 2+2?") [⟨Role.system, "sys"⟩] (Json.obj []) =
      .ok ([⟨Role.system, "sys"⟩, ⟨Role.assistant, unexpectedFormatMsg⟩],
        some unexpectedFormatMsg)) := by
  refine ⟨?_, ?_, ?_, ?_, ?_⟩
  · intro fs c0fs mfs tl v h1 h2 h3
    have a1 := any_true_of_jLookup h1
    have a2 := any_true_of_jLookup h2
    simp [extract_response_text, pyInStr, a1, a2, pySubscriptStr, h1, h2, h3,
      pyTruthy, pySubscript0]
  · intro fs c0fs tl v h1 h2 h3
    have a1 := any_true_of_jLookup h1
    have a3 := any_true_of_jLookup h3
    have a2 := any_false_of_jLookup_none h2
    simp [extract_response_text, pyInStr, a1, a2, a3, pySubscriptStr, h1, h3,
      pyTruthy, pySubscript0]
  · intro fs h1
    have a1 := any_false_of_jLookup_none h1
    simp [extract_response_text, pyInStr, a1]
  · intro fs h1
    have a1 := any_true_of_jLookup h1
    simp [extract_response_text, pyInStr, a1, pySubscriptStr, h1, pyTruthy]
  · rfl

/-- Claim C10, witness: the amended theorem's `message.content` branch
at a concrete well-shaped response. -/
theorem C10_wit :
    extract_response_text (Json.obj [("choices",
        Json.arr [Json.obj [("message", Json.obj [("content", Json.str "hi")])]])]) =
      .ok (Json.str "hi") :=
  C10_thm.1 [("choices",
      Json.arr [Json.obj [("message", Json.obj [("content", Json.str "hi")])]])]
    [("message", Json.obj [("content", Json.str "hi")])]
    [("content", Json.str "hi")] [] (Json.str "hi") rfl rfl rfl

/-! ## Think-span removal lemmas and Claim C7 -/

/-- Finding the closing tag drops at least the tag itself. -/
theorem findClose_le {l r : List Char} (h : findClose l = some r) :
    r.length + 8 ≤ l.length := by
  induction l with
  | nil => exact Option.noConfusion h
  | cons c cs ih =>
    rw [findClose] at h
    by_cases hp : thinkClose.isPrefixOf (c :: cs) = true
    · rw [if_pos hp] at h
      cases h
      have hpre := List.IsPrefix.length_le (List.isPrefixOf_iff_prefix.mp hp)
      simp only [thinkClose, List.length_cons, List.length_nil, List.length_drop] at hpre ⊢
      omega
    · rw [if_neg hp] at h
      have := ih h
      simp only [List.length_cons]
      omega

/-- Fuel does not matter once it covers the input length. -/
theorem removeThinkF_fuel (f : Nat) : ∀ (g : Nat) (l : List Char),
    l.length ≤ f → l.length ≤ g → removeThinkF f l = removeThinkF g l := by
  induction f with
  | zero =>
    intro g l hf _
    have : l = [] := List.length_eq_zero.mp (Nat.le_zero.mp hf)
    subst this
    cases g <;> rfl
  | succ f2 ih =>
    intro g l hf hg
    cases l with
    | nil => cases g <;> rfl
    | cons c cs =>
      cases g with
      | zero => simp at hg
      | succ g2 =>
        simp only [List.length_cons] at hf hg
        rw [removeThinkF, removeThinkF]
        by_cases hp : thinkOpen.isPrefixOf (c :: cs) = true
        · rw [if_pos hp, if_pos hp]
          rcases hfc : findClose ((c :: cs).drop 7) with _ | rest
          · rw [ih g2 cs (by omega) (by omega)]
          · have hrest := findClose_le hfc
            simp only [List.length_drop, List.length_cons] at hrest
            exact ih g2 rest (by omega) (by omega)
        · rw [if_neg hp, if_neg hp]
          rw [ih g2 cs (by omega) (by omega)]

/-- With no `<` in the separating text, the earliest closing tag after
it is the appended one. -/
theorem findClose_append (b tail : List Char) (hb : ∀ c ∈ b, c ≠ '<') :
    findClose (b ++ (thinkClose ++ tail)) = some tail := by
  induction b with
  | nil =>
    simp only [List.nil_append]
    rw [show thinkClose ++ tail =
      '<' :: '/' :: 't' :: 'h' :: 'i' :: 'n' :: 'k' :: '>' :: tail from rfl]
    rw [findClose]
    rw [if_pos (by simp [thinkClose, List.isPrefixOf])]
    rfl
  | cons c b2 ih =>
    have hc : c ≠ '<' := hb c (List.mem_cons_self c b2)
    rw [List.cons_append, findClose]
    rw [if_neg (by simp [thinkClose, List.isPrefixOf, Ne.symm hc])]
    exact ih (fun x hx => hb x (List.mem_cons_of_mem c hx))

/-- Removing think spans erases a whole `<think>...</think>` block whose
body contains no `<`. -/
theorem removeThink_span (b tail : List Char) (hb : ∀ c ∈ b, c ≠ '<') :
    removeThink (thinkOpen ++ b ++ (thinkClose ++ tail)) = removeThink tail := by
  have hshape : thinkOpen ++ b ++ (thinkClose ++ tail) =
      '<' :: 't' :: 'h' :: 'i' :: 'n' :: 'k' :: '>' :: (b ++ (thinkClose ++ tail)) := by
    simp [thinkOpen, List.append_assoc]
  rw [removeThink, hshape]
  have hlen : ('<' :: 't' :: 'h' :: 'i' :: 'n' :: 'k' :: '>' ::
      (b ++ (thinkClose ++ tail))).length = 15 + b.length + tail.length := by
    simp [thinkClose]
    omega
  rw [hlen]
  rw [show (15 : Nat) + b.length + tail.length = (14 + b.length + tail.length) + 1 from by omega]
  rw [removeThinkF]
  rw [if_pos (by simp [thinkOpen, List.isPrefixOf])]
  have hdrop : ('<' :: 't' :: 'h' :: 'i' :: 'n' :: 'k' :: '>' ::
      (b ++ (thinkClose ++ tail))).drop 7 = b ++ (thinkClose ++ tail) := rfl
  rw [hdrop, findClose_append b tail hb]
  rw [removeThink]
  exact removeThinkF_fuel _ _ tail (by omega) (Nat.le_refl _)

/-- Claim C7: `clean_response_text` removes `<think>...</think>` spans
(whatever their content, including multi-line text), removes remaining
markup-like tags, and strips leading blank lines and surrounding
whitespace; in particular the spec's example cleans to `Hello world`. -/
theorem C7_thm :
    (∀ b : String, (∀ c ∈ b.data, c ≠ '<') →
      clean_response_text ("<think>" ++ b ++ "</think>Hello <b>world</b>") = "Hello world") ∧
    clean_response_text ("<think>reasoning</think>Hello <b>world</b>") = "Hello world" ∧
    clean_response_text ("\n\n  Hello world  ") = "Hello world" := by
  refine ⟨?_, by rfl, by rfl⟩
  intro b hb
  have hdata : ("<think>" ++ b ++ "</think>Hello <b>world</b>").data =
      thinkOpen ++ b.data ++ (thinkClose ++ ("Hello <b>world</b>").data) := by
    rw [String.data_append, String.data_append]
    rw [show ("<think>").data = thinkOpen from rfl]
    rw [show ("</think>Hello <b>world</b>").data =
      thinkClose ++ ("Hello <b>world</b>").data from rfl]
  unfold clean_response_text
  rw [hdata, removeThink_span b.data ("Hello <b>world</b>").data hb]
  rfl

/-- Claim C7, witness: the universal conjunct applied to a multi-line
think body. -/
theorem C7_wit :
    clean_response_text ("<think>" ++ "multi\nline reasoning" ++ "</think>Hello <b>world</b>") =
      "Hello world" :=
  C7_thm.1 ("multi\nline reasoning") (by decide)

/-! ## Stream-decoder lemmas and Claim C6 -/

/-- When the loop body completes a line without an exception, the value
it contributes is exactly the spec's `choices[0].delta.content`-if-
present-and-non-empty. -/
theorem extractDelta_ok_eq (j : Json) (o : Option String)
    (h : extractDelta j = .ok o) : deltaSpec j = o := by
  cases j with
  | null => simp [extractDelta, pyInStr] at h
  | bool b => simp [extractDelta, pyInStr] at h
  | num raw => simp [extractDelta, pyInStr] at h
  | str s =>
    cases hc : strContains s ("choices") with
    | false => simp [extractDelta, pyInStr, hc] at h; simp [deltaSpec, ← h]
    | true => simp [extractDelta, pyInStr, hc, pySubscriptStr] at h
  | arr xs =>
    cases hc : xs.any (fun x => match x with | .str s => s == ("choices") | _ => false) with
    | false => simp [extractDelta, pyInStr, hc] at h; simp [deltaSpec, ← h]
    | true => simp [extractDelta, pyInStr, hc, pySubscriptStr] at h
  | obj fs =>
    cases hany : fs.any (fun p => p.1 == ("choices")) with
    | false =>
      have hnone := jLookup_none_of_any_false hany
      simp [extractDelta, pyInStr, hany] at h
      simp [deltaSpec, hnone, ← h]
    | true =>
      rcases hv : jLookup fs ("choices") with _ | v
      · have hx := any_false_of_jLookup_none hv
        rw [hany] at hx
        exact Bool.noConfusion hx
      · rw [extractDelta] at h
        simp only [pyInStr, hany] at h
        simp only [pySubscriptStr, hv] at h
        simp only [deltaSpec, hv]
        cases v with
        | null => simp [pyTruthy] at h; simp [← h]
        | bool b =>
          cases b with
          | false => simp [pyTruthy] at h; simp [← h]
          | true => simp [pyTruthy, pySubscript0] at h
        | num raw =>
          cases ht : numTruthy raw with
          | false => simp [pyTruthy, ht] at h; simp [← h]
          | true => simp [pyTruthy, ht, pySubscript0] at h
        | str s =>
          by_cases hs : s = ""
          · subst hs; simp [pyTruthy] at h; simp [← h]
          · simp [pyTruthy, hs, pySubscript0, pyGet] at h
        | obj gs =>
          cases gs with
          | nil => simp [pyTruthy] at h; simp [← h]
          | cons g gt => simp [pyTruthy, pySubscript0] at h
        | arr xs =>
          cases xs with
          | nil => simp [pyTruthy] at h; simp [← h]
          | cons x xt =>
            simp only [pyTruthy, List.isEmpty_cons, Bool.not_false, if_true,
              pySubscript0] at h
            cases x with
            | null => simp [pyGet] at h
            | bool b => simp [pyGet] at h
            | num raw => simp [pyGet] at h
            | str s => simp [pyGet] at h
            | arr ys => simp [pyGet] at h
            | obj c0 =>
              simp only [pyGet] at h
              rcases hd : jLookup c0 ("delta") with _ | d
              · rw [hd] at h
                simp [pyTruthy, pyGet, jLookup] at h
                simp [hd, ← h]
              · rw [hd] at h
                simp only [hd]
                cases d with
                | null => simp [pyGet] at h
                | bool b => simp [pyGet] at h
                | num raw => simp [pyGet] at h
                | str s => simp [pyGet] at h
                | arr ys => simp [pyGet] at h
                | obj dfs =>
                  simp only [pyGet, Option.getD_some] at h
                  rcases hc2 : jLookup dfs ("content") with _ | cv
                  · rw [hc2] at h
                    simp [pyTruthy] at h
                    simp [hc2, ← h]
                  · rw [hc2] at h
                    simp only [hc2]
                    cases cv with
                    | null => simp [pyTruthy] at h; simp [← h]
                    | bool b =>
                      cases b with
                      | false => simp [pyTruthy] at h; simp [← h]
                      | true => simp [pyTruthy] at h
                    | num raw =>
                      cases ht : numTruthy raw with
                      | false => simp [pyTruthy, ht] at h; simp [← h]
                      | true => simp [pyTruthy, ht] at h
                    | arr ys =>
                      cases ys with
                      | nil => simp [pyTruthy] at h; simp [← h]
                      | cons y yt => simp [pyTruthy] at h
                    | obj gs =>
                      cases gs with
                      | nil => simp [pyTruthy] at h; simp [← h]
                      | cons g gt => simp [pyTruthy] at h
                    | str s =>
                      by_cases hs : s = ""
                      · subst hs; simp [pyTruthy] at h; simp [← h]
                      · simp [pyTruthy, hs] at h; simp [hs, ← h]

/-- Per-line bridge: an exception-free line contributes exactly its
spec-side delta. -/
theorem processLine_ok_eq (l : String) (o : Option String)
    (h : processLine l = .ok o) : lineDelta l = o := by
  unfold processLine at h
  unfold lineDelta
  by_cases h0 : l = ""
  · rw [if_pos h0] at h ⊢
    simp at h
    rw [h]
  · rw [if_neg h0] at h ⊢
    by_cases h1 : strStarts l dataMarker = true
    · rw [if_pos h1] at h ⊢
      rcases hj : jsonParse (strDrop l 6) with _ | j
      · rw [hj] at h
        dsimp only at h ⊢
        cases h
        rfl
      · rw [hj] at h
        dsimp only at h ⊢
        exact extractDelta_ok_eq j o h
    · rw [if_neg h1] at h ⊢
      simp at h
      rw [h]

/-- The decoding loop on an exception-free line list yields exactly the
spec deltas, in order, and accumulates their concatenation. -/
theorem streamLoop_ok : ∀ (lines : List String), (∀ l ∈ lines, lineOk l = true) →
    ∀ (full : String) (ys : List String),
    streamLoop lines full ys =
      (full ++ strConcat (lines.filterMap lineDelta),
        ys ++ lines.filterMap lineDelta, none) := by
  intro lines
  induction lines with
  | nil => intro _ full ys; simp [streamLoop, strConcat]
  | cons l rest ih =>
    intro hok full ys
    have hl := hok l (List.mem_cons_self l rest)
    have hrest := fun x hx => hok x (List.mem_cons_of_mem l hx)
    rw [streamLoop]
    rcases hp : processLine l with e | o
    · rw [lineOk, hp] at hl
      exact Bool.noConfusion hl
    · have hld := processLine_ok_eq l o hp
      cases o with
      | none =>
        rw [ih hrest full ys]
        simp [List.filterMap_cons, hld]
      | some s =>
        dsimp only
        rw [ih hrest (full ++ s) (ys ++ [s])]
        simp [List.filterMap_cons, hld, strConcat, String.append_assoc]

/-- Claim C6, counterexample: the line `data: 5` parses as JSON, and
the membership test `"choices" in 5` then raises `TypeError`, aborting
the whole stream, so the decoder yields nothing although the claim
demands that it continue and yield the following line's `Hel`. -/
theorem C6_cex :
    List.filterMap lineDelta [("data: 5" : String), sseHelLine] = ["Hel"] ∧
    streamLoop [("data: 5" : String), sseHelLine] "" [] = ("", [], some PyExc.typeError) ∧
    ([] : List String) ≠ ["Hel"] := by
  refine ⟨by decide, by decide, by decide⟩

/-- Claim C6, amended: for every line sequence whose payloads never
make the body raise (in particular, all well-shaped or non-JSON
payloads), the decoder skips blank lines, unmarked lines, and
JSON-parse failures while continuing, and yields, in input order,
exactly the present-and-non-empty `choices[0].delta.content` strings;
the spec's three-line example yields `Hel`, `lo`, the finalized message
is `Hello`, and an interleaved `data: not-json` line is skipped without
aborting.  A line such as `data: NaN` — JSON-parseable by `json.loads`
yet of a non-container type — raises and aborts, so it falls outside
the hypothesis, exactly as it aborts the program. -/
theorem C6_thm :
    (∀ lines : List String, (∀ l ∈ lines, lineOk l = true) →
      streamLoop lines "" [] =
        (strConcat (lines.filterMap lineDelta), lines.filterMap lineDelta, none)) ∧
    streamLoop [sseHelLine, sseLoLine, sseDoneLine] "" [] = ("Hello", ["Hel", "lo"], none) ∧
    (handle_stream_response [⟨Role.system, "sys"⟩] [sseHelLine, sseLoLine, sseDoneLine]
        none).newHistory = [⟨Role.system, "sys"⟩, ⟨Role.assistant, "Hello"⟩] ∧
    streamLoop [sseHelLine, ("data: not-json" : String), sseLoLine] "" [] =
      ("Hello", ["Hel", "lo"], none) ∧
    lineOk ("data: NaN") = false ∧
    streamLoop [("data: NaN" : String), sseHelLine] "" [] =
      ("", [], some PyExc.typeError) := by
    refine ⟨?_, by decide, by decide, by decide, by decide, by decide⟩
    intro lines h
    rw [streamLoop_ok lines h "" []]
    simp

/-- Claim C6, witness: the universal conjunct applied to the concrete
two-line stream ending in the `[DONE]` sentinel. -/
theorem C6_wit :
    streamLoop [sseHelLine, sseDoneLine] "" [] =
      (strConcat (List.filterMap lineDelta [sseHelLine, sseDoneLine]),
        List.filterMap lineDelta [sseHelLine, sseDoneLine], none) :=
  C6_thm.1 [sseHelLine, sseDoneLine] (by decide)

/-! ## Session-invariant lemmas and Claim C9 -/

/-- Initialization seeds exactly one system message. -/
theorem display_question_shape {tmpl q a : String} {msgs : List Message}
    (h : display_question tmpl q a = .ok msgs) : ∃ s, msgs = [⟨Role.system, s⟩] := by
  unfold display_question at h
  rcases hf : pyFormat tmpl q a with e | s
  · rw [hf] at h
    cases e with
    | keyError k =>
      dsimp only at h
      cases h
      exact ⟨fallback_prompt q a, rfl⟩
    | valueError => dsimp only at h; exact Except.noConfusion h
    | otherError => dsimp only at h; exact Except.noConfusion h
  · rw [hf] at h
    dsimp only at h
    cases h
    exact ⟨s, rfl⟩

/-- A user turn appends nothing or one user message. -/
theorem send_message_shape (hist : List Message) (t : String) :
    send_message hist t = hist ∨ send_message hist t = hist ++ [⟨Role.user, t⟩] := by
  unfold send_message
  by_cases h : stripStr t = ""
  · exact Or.inl (by rw [if_pos h])
  · exact Or.inr (by rw [if_neg h])

/-- The non-streaming assistant turn appends nothing or one assistant
message. -/
theorem add_assistant_shape (q : String) (hist : List Message) (raw : String) :
    (add_assistant_response q hist raw).1 = hist ∨
    ∃ s, (add_assistant_response q hist raw).1 = hist ++ [⟨Role.assistant, s⟩] := by
  unfold add_assistant_response
  dsimp only
  split
  · exact Or.inr ⟨_, rfl⟩
  · exact Or.inl rfl

/-- The streaming assistant turn appends nothing or one assistant
message. -/
theorem stream_shape (hist : List Message) (lines : List String)
    (terr : Option String) :
    (handle_stream_response hist lines terr).newHistory = hist ∨
    ∃ s, (handle_stream_response hist lines terr).newHistory =
      hist ++ [⟨Role.assistant, s⟩] := by
  unfold handle_stream_response
  rcases h : streamLoop lines "" [] with ⟨full, ys, exc⟩
  dsimp only
  split
  · exact Or.inr ⟨_, rfl⟩
  · exact Or.inl rfl

/-- The seeded-system-message shape is preserved by every reachable
state. -/
theorem reachable_shape {q : String} {h : List Message} (hr : Reachable q h) :
    ∃ s tl, h = ⟨Role.system, s⟩ :: tl ∧ ∀ m ∈ tl, m.role ≠ Role.system := by
  induction hr with
  | init tmpl a msgs hd =>
    rcases display_question_shape hd with ⟨s, rfl⟩
    exact ⟨s, [], rfl, by simp⟩
  | user hist t _ ih =>
    rcases ih with ⟨s, tl, rfl, htl⟩
    rcases send_message_shape (⟨Role.system, s⟩ :: tl) t with he | he
    · rw [he]
      exact ⟨s, tl, rfl, htl⟩
    · rw [he]
      refine ⟨s, tl ++ [⟨Role.user, t⟩], by simp, ?_⟩
      intro m hm
      rcases List.mem_append.mp hm with hm | hm
      · exact htl m hm
      · simp at hm
        rw [hm]
        simp
  | assistantDirect hist raw _ ih =>
    rcases ih with ⟨s, tl, rfl, htl⟩
    rcases add_assistant_shape q (⟨Role.system, s⟩ :: tl) raw with he | ⟨s2, he⟩
    · rw [he]
      exact ⟨s, tl, rfl, htl⟩
    · rw [he]
      refine ⟨s, tl ++ [⟨Role.assistant, s2⟩], by simp, ?_⟩
      intro m hm
      rcases List.mem_append.mp hm with hm | hm
      · exact htl m hm
      · simp at hm
        rw [hm]
        simp
  | assistantStream hist lines terr _ ih =>
    rcases ih with ⟨s, tl, rfl, htl⟩
    rcases stream_shape (⟨Role.system, s⟩ :: tl) lines terr with he | ⟨s2, he⟩
    · rw [he]
      exact ⟨s, tl, rfl, htl⟩
    · rw [he]
      refine ⟨s, tl ++ [⟨Role.assistant, s2⟩], by simp, ?_⟩
      intro m hm
      rcases List.mem_append.mp hm with hm | hm
      · exact htl m hm
      · simp at hm
        rw [hm]
        simp

/-- Claim C9: in every reachable session state the history starts with
a system message and contains exactly one; each of the three mutating
operations appends only a user or an assistant message (or nothing). -/
theorem C9_thm :
    (∀ (q : String) (h : List Message), Reachable q h →
      h.head?.map Message.role = some Role.system ∧
      (h.filter (fun m => m.role == Role.system)).length = 1) ∧
    (∀ (hist : List Message) (t : String),
      send_message hist t = hist ∨ send_message hist t = hist ++ [⟨Role.user, t⟩]) ∧
    (∀ (q : String) (hist : List Message) (raw : String),
      (add_assistant_response q hist raw).1 = hist ∨
      ∃ s, (add_assistant_response q hist raw).1 = hist ++ [⟨Role.assistant, s⟩]) ∧
    (∀ (hist : List Message) (lines : List String) (terr : Option String),
      (handle_stream_response hist lines terr).newHistory = hist ∨
      ∃ s, (handle_stream_response hist lines terr).newHistory =
        hist ++ [⟨Role.assistant, s⟩]) := by
  refine ⟨?_, send_message_shape, add_assistant_shape, stream_shape⟩
  intro q h hr
  rcases reachable_shape hr with ⟨s, tl, rfl, htl⟩
  constructor
  · rfl
  · rw [List.filter_cons]
    have hone : (⟨Role.system, s⟩ : Message).role == Role.system := by rfl
    rw [if_pos hone]
    have hnil : tl.filter (fun m => m.role == Role.system) = [] := by
      rw [List.filter_eq_nil_iff]
      intro m hm
      have := htl m hm
      simp [this]
    rw [hnil]
    rfl

/-- Claim C9, witness: the invariant holds in the concrete state
reached by initializing and then submitting one user turn. -/
theorem C9_wit :
    ([⟨Role.system, "T"⟩, ⟨Role.user, "hi"⟩] : List Message).head?.map Message.role =
      some Role.system ∧
    (([⟨Role.system, "T"⟩, ⟨Role.user, "hi"⟩] : List Message).filter
      (fun m => m.role == Role.system)).length = 1 := by
  have h0 : Reachable ("Q?") [⟨Role.system, "T"⟩] :=
    Reachable.init ("T") ("A") [⟨Role.system, "T"⟩] (by rfl)
  have h1 := Reachable.user [⟨Role.system, "T"⟩] ("hi") h0
  have he : send_message [⟨Role.system, "T"⟩] ("hi") =
      [⟨Role.system, "T"⟩, ⟨Role.user, "hi"⟩] := by decide
  rw [he] at h1
  exact C9_thm.1 ("Q?") [⟨Role.system, "T"⟩, ⟨Role.user, "hi"⟩] h1

end AnkiQuiz
